import Mathlib

/-!
A shallow embedding of the synthesis core of `src/pkg/opencomposition.go`
(the kedge repository): the translation of a user-authored application
descriptor (`App`) into a deployment, an optional service and a list of
persistent-volume claims, together with theorems about its behaviour.

Go maps are modelled as association lists wrapped in `Option` (a `nil` map
is `none`, which is distinct from an empty non-nil map `some []`, exactly as
in Go).  Go `nil` pointers are `none`.  Fallible Go functions returning
`(T, error)` are modelled with `Except String T`.
-/

set_option autoImplicit false

namespace Kedge

/-- `api_v1.PersistentVolumeClaimVolumeSource` (only the field the source reads/writes). -/
structure PersistentVolumeClaimVolumeSource where
  claimName : String
deriving DecidableEq, Repr

/-- `api_v1.VolumeSource`, restricted to the one member the source constructs. -/
structure VolumeSource where
  persistentVolumeClaim : Option PersistentVolumeClaimVolumeSource
deriving DecidableEq, Repr

/-- `api_v1.Volume`: a pod-level volume entry. -/
structure PodVolume where
  name : String
  volumeSource : VolumeSource
deriving DecidableEq, Repr

/-- `api_v1.VolumeMount` (only the name is read by the synthesis code). -/
structure VolumeMount where
  name : String
  mountPath : String
deriving DecidableEq, Repr

/-- `api_v1.ContainerPort` (only `ContainerPort` is read; `int32` modelled as `Int`). -/
structure ContainerPort where
  containerPort : Int
deriving DecidableEq, Repr

/-- `api_v1.Container`, restricted to the fields the synthesis code touches. -/
structure Container where
  name : String
  ports : List ContainerPort
  volumeMounts : List VolumeMount
deriving DecidableEq, Repr

/-- `api_v1.PodSpec`, restricted to the fields the synthesis code touches. -/
structure PodSpec where
  containers : List Container
  volumes : List PodVolume
deriving DecidableEq, Repr

/-- `pkg.Volume`: an embedded `api_v1.Volume` plus a `Size` string. -/
structure Volume where
  volume : PodVolume
  size : String
deriving DecidableEq, Repr

/-- `pkg.App`: the user-authored descriptor.  `Replicas *int32` is `Option Int`,
the `Labels map[string]string` is `Option` of an association list (`none` = nil map),
and the embedded `api_v1.PodSpec` is the `podSpec` field. -/
structure App where
  name : String
  replicas : Option Int
  expose : Bool
  labels : Option (List (String × String))
  persistentVolumes : List Volume
  podSpec : PodSpec
deriving DecidableEq, Repr

/-- A parsed storage quantity: sign, the written numeric part, and the unit suffix.
Models the result of the external `resource.ParseQuantity` well enough to compare
parsed quantities for equality. -/
structure Quantity where
  neg : Bool
  digits : List Char
  suffix : String
deriving DecidableEq, Repr

/-- Splits a leading run of decimal digits off a character list. -/
def takeDigits : List Char → List Char × List Char
  | [] => ([], [])
  | c :: rest =>
    if c.isDigit then
      let p := takeDigits rest
      (c :: p.1, p.2)
    else ([], c :: rest)

/-- The unit suffixes accepted by the quantity parser: binary (Ki..Ei) and
decimal SI (n..E) suffixes, or no suffix. -/
def validSuffix (s : List Char) : Bool :=
  ((["", "n", "u", "m", "k", "M", "G", "T", "P", "E",
     "Ki", "Mi", "Gi", "Ti", "Pi", "Ei"].map String.data).contains s)

/-- Model of the external `resource.ParseQuantity`: an optional sign, a non-empty
run of digits, an optional fractional part, then a recognised unit suffix;
anything else fails.  Only the accept/reject behaviour and the identity of the
parse result matter to the synthesis code. -/
def parseQuantity (s : String) : Option Quantity :=
  let cs := s.data
  let signed : Bool × List Char :=
    match cs with
    | '-' :: rest => (true, rest)
    | '+' :: rest => (false, rest)
    | other => (false, other)
  let whole := takeDigits signed.2
  if whole.1.isEmpty then none
  else
    let frac : List Char × List Char :=
      match whole.2 with
      | '.' :: rest =>
        let d := takeDigits rest
        if d.1.isEmpty then ([], '.' :: rest) else ('.' :: d.1, d.2)
      | other => ([], other)
    if validSuffix frac.2 then
      some { neg := signed.1, digits := whole.1 ++ frac.1, suffix := String.mk frac.2 }
    else none

/-- `api_v1.PersistentVolumeAccessMode`. -/
inductive AccessMode where
  | readWriteOnce
  | readOnlyMany
  | readWriteMany
deriving DecidableEq, Repr

/-- `api_v1.PersistentVolumeClaim`, restricted to the fields the source sets:
name, the storage request and the access modes. -/
structure PersistentVolumeClaim where
  name : String
  storageRequest : Quantity
  accessModes : List AccessMode
deriving DecidableEq, Repr

/-- `api_v1.ServicePort` (the target port is built with `intstr.FromInt`, so an `Int`). -/
structure ServicePort where
  name : String
  port : Int
  targetPort : Int
deriving DecidableEq, Repr

/-- `api_v1.Service`, restricted to the fields the source sets.  The service
type is the Go string field; its zero value `""` is the cluster-internal default. -/
structure Service where
  name : String
  labels : Option (List (String × String))
  selector : Option (List (String × String))
  serviceType : String
  ports : List ServicePort
deriving DecidableEq, Repr

/-- `api_v1.PodTemplateSpec`, restricted to the fields the source sets. -/
structure PodTemplateSpec where
  name : String
  labels : Option (List (String × String))
  spec : PodSpec
deriving DecidableEq, Repr

/-- `ext_v1beta1.Deployment`, restricted to the fields the source sets. -/
structure Deployment where
  name : String
  labels : Option (List (String × String))
  replicas : Option Int
  template : PodTemplateSpec
deriving DecidableEq, Repr

/-- A `runtime.Object` in the output slice.  The service element is an
`Option Service` because the Go code appends the `*api_v1.Service` pointer
unconditionally, and that pointer is `nil` when no port was declared. -/
inductive K8sObject where
  | deployment (d : Deployment)
  | service (s : Option Service)
  | pvc (p : PersistentVolumeClaim)
deriving DecidableEq, Repr

/-- `getLabels`: the defaulted single-entry label map. -/
def getLabels (app : App) : List (String × String) :=
  [("app", app.name)]

/-- `initService`: the bare service skeleton, name and labels/selector from the app. -/
def initService (app : App) : Service :=
  { name := app.name
    labels := app.labels
    selector := app.labels
    serviceType := ""
    ports := [] }

/-- `allPorts`: flatten every container's ports by the same nested
append loop the Go code uses. -/
def allPorts (app : App) : List ContainerPort :=
  app.podSpec.containers.foldl
    (fun ports c => c.ports.foldl (fun ports p => ports ++ [p]) ports) []

/-- `createDeployment`: the bare-minimum deployment built from the app. -/
def createDeployment (app : App) : Deployment :=
  { name := app.name
    labels := app.labels
    replicas := app.replicas
    template :=
      { name := app.name
        labels := app.labels
        spec := app.podSpec } }

/-- `isVolumeDefined`: is a volume of this name declared in `persistentVolumes`? -/
def isVolumeDefined (app : App) (name : String) : Bool :=
  app.persistentVolumes.any fun v => name == v.volume.name

/-- The index loop of `searchVolumeIndex`, carrying the current index. -/
def searchVolumeIndexAux (name : String) : List Volume → Nat → Int
  | [], _ => -1
  | v :: rest, i =>
    if name == v.volume.name then Int.ofNat i else searchVolumeIndexAux name rest (i + 1)

/-- `searchVolumeIndex`: first index of a declared volume with this name, `-1` if none. -/
def searchVolumeIndex (app : App) (name : String) : Int :=
  searchVolumeIndexAux name app.persistentVolumes 0

/-- `createPVC`: parse the declared size and build the claim; a size that fails
to parse is a wrapped error. -/
def createPVC (v : Volume) : Except String PersistentVolumeClaim :=
  match parseQuantity v.size with
  | none => .error "could not read volume size"
  | some size =>
    .ok { name := v.volume.name
          storageRequest := size
          accessModes := [AccessMode.readWriteOnce] }

/-- The pod-level volume entry the loop body of `CreateK8sObjects` constructs
for a mount name: sourced from a claim reference of the same name. -/
def mkPodVolume (n : String) : PodVolume :=
  { name := n
    volumeSource := { persistentVolumeClaim := some { claimName := n } } }

/-- One service port entry: named `port-<containerPort>`, same number on both sides. -/
def servicePortFor (p : ContainerPort) : ServicePort :=
  { name := "port-" ++ toString p.containerPort
    port := p.containerPort
    targetPort := p.containerPort }

/-- The body of the volume loop of `CreateK8sObjects` for one volume mount:
append the pod-level volume unconditionally; if the name is declared, build the
claim from the first declared volume of that name, otherwise declare a new
`"100Mi"` volume and build the claim from it.  The state is the app being
mutated plus the claim list built so far. -/
def processMount (st : App × List PersistentVolumeClaim) (vm : VolumeMount) :
    Except String (App × List PersistentVolumeClaim) :=
  let podVolume := mkPodVolume vm.name
  let app1 := { st.1 with
                podSpec := { st.1.podSpec with
                             volumes := st.1.podSpec.volumes ++ [podVolume] } }
  if isVolumeDefined app1 vm.name then
    match app1.persistentVolumes.get? (searchVolumeIndex app1 vm.name).toNat with
    | none => .error "cannot create pvc: index out of range"
    | some v =>
      match createPVC v with
      | .error e => .error ("cannot create pvc: " ++ e)
      | .ok pvc => .ok (app1, st.2 ++ [pvc])
  else
    let v : Volume := { volume := podVolume, size := "100Mi" }
    let app2 := { app1 with persistentVolumes := app1.persistentVolumes ++ [v] }
    match createPVC v with
    | .error e => .error ("cannot create pvc: " ++ e)
    | .ok pvc => .ok (app2, st.2 ++ [pvc])

/-- The inner `for _, vm := range c.VolumeMounts` loop. -/
def runMounts (st : App × List PersistentVolumeClaim) :
    List VolumeMount → Except String (App × List PersistentVolumeClaim)
  | [] => .ok st
  | vm :: rest =>
    match processMount st vm with
    | .error e => .error e
    | .ok st1 => runMounts st1 rest

/-- The outer `for _, c := range app.Containers` loop. -/
def runContainers (st : App × List PersistentVolumeClaim) :
    List Container → Except String (App × List PersistentVolumeClaim)
  | [] => .ok st
  | c :: rest =>
    match runMounts st c.volumeMounts with
    | .error e => .error e
    | .ok st1 => runContainers st1 rest

/-- The volume/claim inference pass of `CreateK8sObjects` (its nested loop over
containers and volume mounts), started from an empty claim list. -/
def volumeInference (app : App) : Except String (App × List PersistentVolumeClaim) :=
  runContainers (app, []) app.podSpec.containers

/-- The `if app.Labels == nil` defaulting at the top of `CreateK8sObjects`. -/
def ensureLabels (app : App) : App :=
  match app.labels with
  | none => { app with labels := some (getLabels app) }
  | some _ => app

/-- The single-container convenience at the end of `CreateK8sObjects`: if there
is exactly one container and its name is empty, name it after the app. -/
def renameSingleContainer (app : App) : App :=
  match app.podSpec.containers with
  | [c] =>
    if c.name == "" then
      { app with podSpec := { app.podSpec with containers := [{ c with name := app.name }] } }
    else app
  | _ => app

/-- The `if app.Expose` mutation on the freshly initialised service. -/
def setServiceType (app : App) (s : Service) : Service :=
  if app.expose then { s with serviceType := "LoadBalancer" } else s

/-- The `for _, p := range ports` loop appending the port entries to the service. -/
def addServicePorts (s : Service) (ports : List ContainerPort) : Service :=
  { s with ports := ports.foldl (fun acc p => acc ++ [servicePortFor p]) s.ports }

/-- The service-construction block of `CreateK8sObjects` (lines 200-217): the
pointer stays `none` when no port is declared; otherwise the bare service, the
load-balancer type when `expose` is set, and one port entry appended per
aggregated port. -/
def buildService (app : App) : Option Service :=
  if (allPorts app).length > 0 then
    some (addServicePorts (setServiceType app (initService app)) (allPorts app))
  else none

/-- `CreateK8sObjects`: label defaulting, service construction (the pointer stays
`none` when no port is declared, but is appended to the output regardless),
volume/claim inference, single-container renaming, deployment assembly, and the
output slice in order deployment, service, claims.  Returns the mutated app
together with the objects. -/
def CreateK8sObjects (app : App) : Except String (App × List K8sObject) :=
  match volumeInference (ensureLabels app) with
  | .error e => .error e
  | .ok st =>
    .ok (renameSingleContainer st.1,
      K8sObject.deployment (createDeployment (renameSingleContainer st.1)) ::
      K8sObject.service (buildService (ensureLabels app)) ::
      st.2.map K8sObject.pvc)

/-- The per-descriptor behaviour of `Convert` after unmarshalling: the error
returned by `CreateK8sObjects` is assigned but never checked, so on failure the
nil object slice is ranged over (doing nothing) and `Convert` carries on and
ultimately returns success with no output for that descriptor. -/
def convertApp (app : App) : Except String (List K8sObject) :=
  match CreateK8sObjects app with
  | .ok st => .ok st.2
  | .error _ => .ok []

/-- All volume-mount names of all containers, in traversal order. -/
def mountNames (app : App) : List String :=
  ((app.podSpec.containers.map Container.volumeMounts).flatten).map VolumeMount.name

/-- Total number of volume mounts across all containers. -/
def totalMounts (app : App) : Nat :=
  ((app.podSpec.containers.map Container.volumeMounts).flatten).length

/-- Overrides a service object's type to the load-balanced kind; leaves every
other object (and the absent service) unchanged. -/
def setLoadBalancer : K8sObject → K8sObject
  | .service (some s) => .service (some { s with serviceType := "LoadBalancer" })
  | o => o

/-! ### Basic lemmas about the loops -/

/-- The `"100Mi"` default quantity, as `parseQuantity` produces it. -/
def q100Mi : Quantity :=
  { neg := false, digits := ['1', '0', '0'], suffix := "Mi" }

theorem parseQuantity_100Mi : parseQuantity "100Mi" = some q100Mi := rfl

/-- Appending through a left fold is mapping. -/
theorem foldl_append_map {α β : Type} (f : α → β) :
    ∀ (l : List α) (acc : List β),
      l.foldl (fun a x => a ++ [f x]) acc = acc ++ l.map f := by
  intro l
  induction l with
  | nil => intro acc; simp
  | cons x rest ih => intro acc; simp [List.foldl_cons, ih]

/-- Folding list-appends of a projection is flattening the mapped projections. -/
theorem foldl_append_flatten {α β : Type} (g : α → List β) :
    ∀ (l : List α) (acc : List β),
      l.foldl (fun a x => a ++ g x) acc = acc ++ (l.map g).flatten := by
  intro l
  induction l with
  | nil => intro acc; simp
  | cons x rest ih => intro acc; simp [List.foldl_cons, ih]

theorem allPorts_aux :
    ∀ (cs : List Container) (acc : List ContainerPort),
      cs.foldl (fun ports c => c.ports.foldl (fun ports p => ports ++ [p]) ports) acc
        = acc ++ (cs.map Container.ports).flatten := by
  intro cs
  induction cs with
  | nil => intro acc; simp
  | cons c rest ih =>
    intro acc
    have hinner : c.ports.foldl (fun ports p => ports ++ [p]) acc = acc ++ c.ports := by
      have := foldl_append_map (fun p : ContainerPort => p) c.ports acc
      simpa using this
    simp [List.foldl_cons, hinner, ih]

/-- `allPorts` is the order-preserving flattening of every container's ports. -/
theorem allPorts_eq_flatten (app : App) :
    allPorts app = (app.podSpec.containers.map Container.ports).flatten := by
  unfold allPorts
  simpa using allPorts_aux app.podSpec.containers []

/-! ### The search loop finds the first declared volume of a name -/

theorem searchVolumeIndexAux_shift (name : String) :
    ∀ (l : List Volume) (i : Nat),
      (l.any fun v => name == v.volume.name) = true →
      searchVolumeIndexAux name l i = searchVolumeIndexAux name l 0 + i := by
  intro l
  induction l with
  | nil => intro i h; simp at h
  | cons v rest ih =>
    intro i h
    by_cases hv : (name == v.volume.name)
    · simp [searchVolumeIndexAux, hv]
    · simp only [List.any_cons, hv, Bool.false_or] at h
      simp only [searchVolumeIndexAux, hv, if_false]
      rw [ih (i + 1) h, ih 1 h]
      push_cast
      ring

theorem searchVolumeIndexAux_spec (name : String) :
    ∀ (l : List Volume),
      (l.any fun v => name == v.volume.name) = true →
      ∃ j : Nat, searchVolumeIndexAux name l 0 = Int.ofNat j ∧
        l.get? j = l.find? (fun v => name == v.volume.name) := by
  intro l
  induction l with
  | nil => intro h; simp at h
  | cons v rest ih =>
    intro h
    by_cases hv : (name == v.volume.name)
    · refine ⟨0, ?_, ?_⟩
      · simp [searchVolumeIndexAux, hv]
      · simp [List.find?, hv]
    · simp only [List.any_cons, hv, Bool.false_or] at h
      obtain ⟨j, hj, hg⟩ := ih h
      refine ⟨j + 1, ?_, ?_⟩
      · simp only [searchVolumeIndexAux, hv, if_false]
        rw [searchVolumeIndexAux_shift name rest 1 h, hj]
        simp [Int.ofNat_succ]
      · simpa [List.find?, hv] using hg

/-- When the name is declared, the indexed lookup of `CreateK8sObjects` retrieves
exactly the first declared volume with that name. -/
theorem search_get (app : App) (name : String)
    (h : isVolumeDefined app name = true) :
    app.persistentVolumes.get? (searchVolumeIndex app name).toNat
      = app.persistentVolumes.find? (fun v => name == v.volume.name) := by
  unfold isVolumeDefined at h
  obtain ⟨j, hj, hg⟩ := searchVolumeIndexAux_spec name app.persistentVolumes h
  unfold searchVolumeIndex
  rw [hj]
  simpa using hg

/-! ### The per-mount loop body -/

/-- `processMount` with the record-update projections reduced: the declared-volume
lookups read the same `persistentVolumes` list before and after the pod-volume
append, so the step can be phrased over the incoming app. -/
theorem processMount_eq (a : App) (ps : List PersistentVolumeClaim) (vm : VolumeMount) :
    processMount (a, ps) vm =
      if isVolumeDefined a vm.name then
        match a.persistentVolumes.get? (searchVolumeIndex a vm.name).toNat with
        | none => .error "cannot create pvc: index out of range"
        | some v =>
          match createPVC v with
          | .error e => .error ("cannot create pvc: " ++ e)
          | .ok pvc =>
            .ok ({ a with podSpec := { a.podSpec with
                     volumes := a.podSpec.volumes ++ [mkPodVolume vm.name] } },
                 ps ++ [pvc])
      else
        match createPVC { volume := mkPodVolume vm.name, size := "100Mi" } with
        | .error e => .error ("cannot create pvc: " ++ e)
        | .ok pvc =>
          .ok ({ a with
                 podSpec := { a.podSpec with
                   volumes := a.podSpec.volumes ++ [mkPodVolume vm.name] },
                 persistentVolumes :=
                   a.persistentVolumes ++ [{ volume := mkPodVolume vm.name, size := "100Mi" }] },
               ps ++ [pvc]) := rfl

/-- The value of a `processMount` step whose mount name is declared: the claim is
built from the first declared volume with that name. -/
theorem processMount_found (a : App) (ps : List PersistentVolumeClaim)
    (vm : VolumeMount) (v : Volume)
    (hdef : isVolumeDefined a vm.name = true)
    (hfind : a.persistentVolumes.find? (fun w => vm.name == w.volume.name) = some v) :
    processMount (a, ps) vm =
      match createPVC v with
      | .error e => .error ("cannot create pvc: " ++ e)
      | .ok pvc =>
        .ok ({ a with podSpec := { a.podSpec with
                 volumes := a.podSpec.volumes ++ [mkPodVolume vm.name] } },
             ps ++ [pvc]) := by
  rw [processMount_eq, if_pos hdef, search_get a vm.name hdef, hfind]

/-- The value of a `processMount` step whose mount name is not declared: a new
`"100Mi"` declared volume is appended and the claim is built from it. -/
theorem processMount_notFound (a : App) (ps : List PersistentVolumeClaim)
    (vm : VolumeMount)
    (hdef : isVolumeDefined a vm.name = false) :
    processMount (a, ps) vm =
      .ok ({ a with
             podSpec := { a.podSpec with
               volumes := a.podSpec.volumes ++ [mkPodVolume vm.name] },
             persistentVolumes :=
               a.persistentVolumes ++ [{ volume := mkPodVolume vm.name, size := "100Mi" }] },
           ps ++ [{ name := vm.name, storageRequest := q100Mi,
                    accessModes := [AccessMode.readWriteOnce] }]) := by
  rw [processMount_eq, if_neg (by simp [hdef])]
  exact rfl

/-- Case analysis of a successful `processMount` step: the pod volume is always
appended, identity fields are preserved, exactly one claim (named after the
mount, single-writer) is appended, and the declared-volume list either stays
(name already declared) or gains exactly the `"100Mi"` default entry. -/
theorem processMount_ok (a : App) (ps : List PersistentVolumeClaim) (vm : VolumeMount)
    (a1 : App) (ps1 : List PersistentVolumeClaim)
    (h : processMount (a, ps) vm = .ok (a1, ps1)) :
    a1.name = a.name ∧ a1.replicas = a.replicas ∧ a1.expose = a.expose ∧
    a1.labels = a.labels ∧ a1.podSpec.containers = a.podSpec.containers ∧
    a1.podSpec.volumes = a.podSpec.volumes ++ [mkPodVolume vm.name] ∧
    (∃ p1, ps1 = ps ++ [p1] ∧ p1.name = vm.name ∧
       p1.accessModes = [AccessMode.readWriteOnce]) ∧
    ((isVolumeDefined a vm.name = true ∧ a1.persistentVolumes = a.persistentVolumes) ∨
     (isVolumeDefined a vm.name = false ∧
      a1.persistentVolumes
        = a.persistentVolumes ++ [{ volume := mkPodVolume vm.name, size := "100Mi" }])) := by
  by_cases hdef : isVolumeDefined a vm.name = true
  · cases hfind : List.find?
        (fun w => vm.name == w.volume.name) a.persistentVolumes with
    | none =>
      exfalso
      unfold isVolumeDefined at hdef
      rw [List.find?_eq_none] at hfind
      rw [List.any_eq_true] at hdef
      obtain ⟨x, hx, hpx⟩ := hdef
      exact hfind x hx hpx
    | some v =>
      have hvname : vm.name = v.volume.name := by
        have := List.find?_some hfind
        simpa using this
      rw [processMount_found a ps vm v hdef hfind] at h
      cases hpvc : createPVC v with
      | error e =>
        rw [hpvc] at h
        exact Except.noConfusion
          (show (Except.error ("cannot create pvc: " ++ e) :
              Except String (App × List PersistentVolumeClaim)) = .ok (a1, ps1) from h)
      | ok pvc =>
        rw [hpvc] at h
        have h3 : (Except.ok
            ({ a with podSpec := { a.podSpec with
                 volumes := a.podSpec.volumes ++ [mkPodVolume vm.name] } },
             ps ++ [pvc]) : Except String (App × List PersistentVolumeClaim))
            = .ok (a1, ps1) := h
        injection h3 with h4
        injection h4 with ha1 hps1
        have hpvcprops : pvc.name = v.volume.name ∧
            pvc.accessModes = [AccessMode.readWriteOnce] := by
          unfold createPVC at hpvc
          cases hq : parseQuantity v.size with
          | none => rw [hq] at hpvc; exact Except.noConfusion hpvc
          | some q =>
            rw [hq] at hpvc
            injection hpvc with h5
            rw [← h5]
            exact ⟨rfl, rfl⟩
        subst ha1
        refine ⟨rfl, rfl, rfl, rfl, rfl, rfl, ⟨pvc, hps1.symm, ?_, hpvcprops.2⟩, ?_⟩
        · rw [hpvcprops.1, hvname]
        · exact Or.inl ⟨hdef, rfl⟩
  · have hdef' : isVolumeDefined a vm.name = false := by
      simpa using hdef
    rw [processMount_notFound a ps vm hdef'] at h
    injection h with h4
    injection h4 with ha1 hps1
    subst ha1
    refine ⟨rfl, rfl, rfl, rfl, rfl, rfl, ⟨_, hps1.symm, rfl, rfl⟩, Or.inr ⟨hdef', rfl⟩⟩

/-! ### The mount loop -/

theorem isVolumeDefined_append (a b : App) (extra : List Volume)
    (h : b.persistentVolumes = a.persistentVolumes ++ extra) (n : String) :
    isVolumeDefined b n
      = (isVolumeDefined a n || extra.any fun v => n == v.volume.name) := by
  unfold isVolumeDefined
  rw [h, List.any_append]

/-- Everything a successful run of the inner mount loop guarantees, phrased
against the state it started from: identity fields preserved; one pod volume
appended per mount in order; one single-writer claim appended per mount, named
after it; the declared-volume list extended only by `"100Mi"` defaults for
previously undeclared mount names, at most one per name; and afterwards every
processed mount name is declared. -/
theorem runMounts_ok :
    ∀ (ms : List VolumeMount) (a : App) (ps : List PersistentVolumeClaim)
      (a' : App) (ps' : List PersistentVolumeClaim),
      runMounts (a, ps) ms = .ok (a', ps') →
      (a'.name = a.name ∧ a'.replicas = a.replicas ∧ a'.expose = a.expose ∧
       a'.labels = a.labels ∧ a'.podSpec.containers = a.podSpec.containers) ∧
      a'.podSpec.volumes
        = a.podSpec.volumes ++ ms.map (fun vm => mkPodVolume vm.name) ∧
      (∃ news, ps' = ps ++ news ∧
         news.map PersistentVolumeClaim.name = ms.map VolumeMount.name ∧
         ∀ p ∈ news, p.accessModes = [AccessMode.readWriteOnce]) ∧
      (∃ extra, a'.persistentVolumes = a.persistentVolumes ++ extra ∧
         (∀ w ∈ extra, w.size = "100Mi" ∧
            isVolumeDefined a w.volume.name = false ∧
            w.volume.name ∈ ms.map VolumeMount.name) ∧
         (extra.map (fun w => w.volume.name)).Nodup) ∧
      (∀ vm ∈ ms, isVolumeDefined a' vm.name = true) := by
  intro ms
  induction ms with
  | nil =>
    intro a ps a' ps' h
    have h2 : (Except.ok (a, ps) :
        Except String (App × List PersistentVolumeClaim)) = .ok (a', ps') := h
    injection h2 with h3
    injection h3 with ha hps
    subst ha; subst hps
    refine ⟨⟨rfl, rfl, rfl, rfl, rfl⟩, by simp, ⟨[], by simp, rfl, by simp⟩,
      ⟨[], by simp, by simp, by simp⟩, by simp⟩
  | cons vm rest ih =>
    intro a ps a' ps' h
    unfold runMounts at h
    cases hpm : processMount (a, ps) vm with
    | error e =>
      rw [hpm] at h
      exact Except.noConfusion
        (show (Except.error e :
            Except String (App × List PersistentVolumeClaim)) = .ok (a', ps') from h)
    | ok st1 =>
      obtain ⟨a1, ps1⟩ := st1
      rw [hpm] at h
      have h2 : runMounts (a1, ps1) rest = .ok (a', ps') := h
      obtain ⟨⟨g1, g2, g3, g4, g5⟩, V, ⟨news1, hn1, hn1names, hn1am⟩,
        ⟨extra1, he1, he1props, he1nd⟩, hdef1⟩ := ih a1 ps1 a' ps' h2
      obtain ⟨f1, f2, f3, f4, f5, v1, ⟨p1, hp1, hp1n, hp1am⟩, hpv⟩ :=
        processMount_ok a ps vm a1 ps1 hpm
      refine ⟨⟨g1.trans f1, g2.trans f2, g3.trans f3, g4.trans f4, g5.trans f5⟩,
        ?_, ⟨p1 :: news1, ?_, ?_, ?_⟩, ?_, ?_⟩
      · rw [V, v1]
        simp
      · rw [hn1, hp1]
        simp
      · simp only [List.map_cons, hn1names, hp1n]
      · intro p hp
        rcases List.mem_cons.mp hp with h | h
        · subst h; exact hp1am
        · exact hn1am p h
      · rcases hpv with ⟨hdefT, hpv1⟩ | ⟨hdefF, hpv1⟩
        · refine ⟨extra1, ?_, ?_, he1nd⟩
          · rw [he1, hpv1]
          · intro w hw
            obtain ⟨hs, hd, hm⟩ := he1props w hw
            have hd' : isVolumeDefined a w.volume.name = false := by
              have := isVolumeDefined_append a a1 [] (by simp [hpv1]) w.volume.name
              simp at this
              rw [← this]
              exact hd
            exact ⟨hs, hd', List.mem_cons_of_mem _ hm⟩
        · have hstep : ∀ w ∈ extra1,
              isVolumeDefined a w.volume.name = false ∧
              (w.volume.name == vm.name) = false := by
            intro w hw
            obtain ⟨hs, hd, hm⟩ := he1props w hw
            have heq := isVolumeDefined_append a a1
              [{ volume := mkPodVolume vm.name, size := "100Mi" }] hpv1 w.volume.name
            rw [hd] at heq
            have hor := (Bool.or_eq_false_iff).mp heq.symm
            refine ⟨hor.1, ?_⟩
            have := hor.2
            simpa [mkPodVolume] using this
          refine ⟨{ volume := mkPodVolume vm.name, size := "100Mi" } :: extra1, ?_, ?_, ?_⟩
          · rw [he1, hpv1]
            simp
          · intro w hw
            rcases List.mem_cons.mp hw with h | h
            · subst h
              exact ⟨rfl, hdefF, List.mem_cons_self _ _⟩
            · obtain ⟨hs, hd, hm⟩ := he1props w h
              exact ⟨hs, (hstep w h).1, List.mem_cons_of_mem _ hm⟩
          · rw [List.map_cons, List.nodup_cons]
            refine ⟨?_, he1nd⟩
            intro hmem
            obtain ⟨w, hw, hwn⟩ := List.mem_map.mp hmem
            have := (hstep w hw).2
            rw [hwn] at this
            simp [mkPodVolume] at this
      · intro vm' hvm'
        rcases List.mem_cons.mp hvm' with hcase | hcase
        · subst hcase
          have hd1 : isVolumeDefined a1 vm'.name = true := by
            rcases hpv with ⟨hdefT, hpv1⟩ | ⟨hdefF, hpv1⟩
            · rw [isVolumeDefined_append a a1 [] (by simp [hpv1]) vm'.name]
              simp [hdefT]
            · rw [isVolumeDefined_append a a1
                [{ volume := mkPodVolume vm'.name, size := "100Mi" }] hpv1 vm'.name]
              simp [mkPodVolume]
          rw [isVolumeDefined_append a1 a' extra1 he1 vm'.name, hd1]
          simp
        · exact hdef1 vm' hcase

/-! ### The container loop is the mount loop over the flattened mount list -/

theorem runMounts_cons (st : App × List PersistentVolumeClaim) (vm : VolumeMount)
    (l : List VolumeMount) :
    runMounts st (vm :: l)
      = match processMount st vm with
        | .error e => .error e
        | .ok st1 => runMounts st1 l := rfl

theorem runMounts_append (ms1 ms2 : List VolumeMount) :
    ∀ (st : App × List PersistentVolumeClaim),
      runMounts st (ms1 ++ ms2)
        = match runMounts st ms1 with
          | .error e => .error e
          | .ok st1 => runMounts st1 ms2 := by
  induction ms1 with
  | nil => intro st; rfl
  | cons vm rest ih =>
    intro st
    show runMounts st (vm :: (rest ++ ms2)) = _
    rw [runMounts_cons, runMounts_cons]
    cases hpm : processMount st vm with
    | error e => rfl
    | ok st1 => exact ih st1

/-- The nested container/mount loops are one mount loop over the flattened,
order-preserving list of all mounts. -/
theorem runContainers_eq (cs : List Container) :
    ∀ (st : App × List PersistentVolumeClaim),
      runContainers st cs = runMounts st (cs.map Container.volumeMounts).flatten := by
  induction cs with
  | nil => intro st; rfl
  | cons c rest ih =>
    intro st
    show runContainers st (c :: rest) = _
    unfold runContainers
    rw [List.map_cons, List.flatten_cons, runMounts_append]
    cases hm : runMounts st c.volumeMounts with
    | error e => rfl
    | ok st1 => exact ih st1

/-- The flattened, order-preserving list of every container's volume mounts. -/
def flatMounts (app : App) : List VolumeMount :=
  (app.podSpec.containers.map Container.volumeMounts).flatten

theorem volumeInference_eq (app : App) :
    volumeInference app = runMounts (app, []) (flatMounts app) := by
  unfold volumeInference flatMounts
  exact runContainers_eq app.podSpec.containers (app, [])

theorem mountNames_eq (app : App) :
    mountNames app = (flatMounts app).map VolumeMount.name := rfl

theorem totalMounts_eq (app : App) :
    totalMounts app = (flatMounts app).length := rfl

/-! ### Label defaulting and container renaming touch nothing else -/

theorem ensureLabels_podSpec (app : App) : (ensureLabels app).podSpec = app.podSpec := by
  unfold ensureLabels
  cases app.labels <;> rfl

theorem ensureLabels_persistentVolumes (app : App) :
    (ensureLabels app).persistentVolumes = app.persistentVolumes := by
  unfold ensureLabels
  cases app.labels <;> rfl

theorem ensureLabels_name (app : App) : (ensureLabels app).name = app.name := by
  unfold ensureLabels
  cases app.labels <;> rfl

theorem ensureLabels_expose (app : App) : (ensureLabels app).expose = app.expose := by
  unfold ensureLabels
  cases app.labels <;> rfl

theorem ensureLabels_replicas (app : App) : (ensureLabels app).replicas = app.replicas := by
  unfold ensureLabels
  cases app.labels <;> rfl

theorem ensureLabels_of_none (app : App) (h : app.labels = none) :
    ensureLabels app = { app with labels := some [("app", app.name)] } := by
  unfold ensureLabels
  rw [h]
  rfl

theorem ensureLabels_of_some (app : App) (l : List (String × String))
    (h : app.labels = some l) : ensureLabels app = app := by
  unfold ensureLabels
  rw [h]

theorem renameSingleContainer_name (app : App) :
    (renameSingleContainer app).name = app.name := by
  unfold renameSingleContainer
  rcases app.podSpec.containers with _ | ⟨c, _ | ⟨d, t⟩⟩ <;> simp <;> split <;> rfl

theorem renameSingleContainer_labels (app : App) :
    (renameSingleContainer app).labels = app.labels := by
  unfold renameSingleContainer
  rcases app.podSpec.containers with _ | ⟨c, _ | ⟨d, t⟩⟩ <;> simp <;> split <;> rfl

theorem renameSingleContainer_replicas (app : App) :
    (renameSingleContainer app).replicas = app.replicas := by
  unfold renameSingleContainer
  rcases app.podSpec.containers with _ | ⟨c, _ | ⟨d, t⟩⟩ <;> simp <;> split <;> rfl

theorem renameSingleContainer_expose (app : App) :
    (renameSingleContainer app).expose = app.expose := by
  unfold renameSingleContainer
  rcases app.podSpec.containers with _ | ⟨c, _ | ⟨d, t⟩⟩ <;> simp <;> split <;> rfl

theorem renameSingleContainer_persistentVolumes (app : App) :
    (renameSingleContainer app).persistentVolumes = app.persistentVolumes := by
  unfold renameSingleContainer
  rcases app.podSpec.containers with _ | ⟨c, _ | ⟨d, t⟩⟩ <;> simp <;> split <;> rfl

theorem renameSingleContainer_volumes (app : App) :
    (renameSingleContainer app).podSpec.volumes = app.podSpec.volumes := by
  unfold renameSingleContainer
  rcases app.podSpec.containers with _ | ⟨c, _ | ⟨d, t⟩⟩ <;> simp <;> split <;> rfl

/-! ### The shape of a successful synthesis -/

/-- A successful `CreateK8sObjects` run decomposes into label defaulting, the
inference pass, the single-container renaming and the fixed output order:
deployment first, then the (possibly nil) service pointer, then the claims. -/
theorem createK8sObjects_ok (app : App) (a' : App) (objs : List K8sObject)
    (h : CreateK8sObjects app = .ok (a', objs)) :
    ∃ a1 ps, volumeInference (ensureLabels app) = .ok (a1, ps) ∧
      a' = renameSingleContainer a1 ∧
      objs = K8sObject.deployment (createDeployment a') ::
             K8sObject.service (buildService (ensureLabels app)) ::
             ps.map K8sObject.pvc := by
  unfold CreateK8sObjects at h
  cases hvi : volumeInference (ensureLabels app) with
  | error e =>
    rw [hvi] at h
    exact Except.noConfusion
      (show (Except.error e : Except String (App × List K8sObject)) = _ from h)
  | ok st =>
    obtain ⟨a1, ps⟩ := st
    rw [hvi] at h
    have h2 : (Except.ok (renameSingleContainer a1,
        K8sObject.deployment (createDeployment (renameSingleContainer a1)) ::
        K8sObject.service (buildService (ensureLabels app)) ::
        ps.map K8sObject.pvc) : Except String (App × List K8sObject))
        = .ok (a', objs) := h
    injection h2 with h3
    injection h3 with ha hobjs
    exact ⟨a1, ps, rfl, ha.symm, by rw [← hobjs, ha]⟩

/-! ### Service construction lemmas -/

theorem setServiceType_ports (app : App) (s : Service) :
    (setServiceType app s).ports = s.ports := by
  unfold setServiceType
  split <;> rfl

theorem setServiceType_name (app : App) (s : Service) :
    (setServiceType app s).name = s.name := by
  unfold setServiceType
  split <;> rfl

theorem setServiceType_labels (app : App) (s : Service) :
    (setServiceType app s).labels = s.labels := by
  unfold setServiceType
  split <;> rfl

theorem setServiceType_selector (app : App) (s : Service) :
    (setServiceType app s).selector = s.selector := by
  unfold setServiceType
  split <;> rfl

theorem addServicePorts_ports (s : Service) (ports : List ContainerPort) :
    (addServicePorts s ports).ports = s.ports ++ ports.map servicePortFor := by
  unfold addServicePorts
  exact foldl_append_map servicePortFor ports s.ports

/-- The service produced when at least one port is declared. -/
theorem buildService_of_ports (app : App) (hp : (allPorts app).length > 0) :
    buildService app
      = some (addServicePorts (setServiceType app (initService app)) (allPorts app)) := by
  unfold buildService
  rw [if_pos hp]

theorem buildService_of_no_ports (app : App) (hp : allPorts app = []) :
    buildService app = none := by
  unfold buildService
  rw [if_neg]
  simp [hp]

/-- The fields of the service produced when at least one port is declared. -/
theorem buildService_fields (app : App) (s : Service)
    (h : buildService app = some s) :
    s.name = app.name ∧ s.labels = app.labels ∧ s.selector = app.labels ∧
    s.ports = (allPorts app).map servicePortFor ∧
    s.serviceType = (if app.expose then "LoadBalancer" else "") := by
  unfold buildService at h
  by_cases hp : (allPorts app).length > 0
  · rw [if_pos hp] at h
    injection h with h1
    subst h1
    refine ⟨?_, ?_, ?_, ?_, ?_⟩
    · rw [show (addServicePorts (setServiceType app (initService app)) (allPorts app)).name
          = (setServiceType app (initService app)).name from rfl,
        setServiceType_name]
      rfl
    · rw [show (addServicePorts (setServiceType app (initService app)) (allPorts app)).labels
          = (setServiceType app (initService app)).labels from rfl,
        setServiceType_labels]
      rfl
    · rw [show (addServicePorts (setServiceType app (initService app)) (allPorts app)).selector
          = (setServiceType app (initService app)).selector from rfl,
        setServiceType_selector]
      rfl
    · rw [addServicePorts_ports, setServiceType_ports]
      rfl
    · unfold setServiceType
      split <;> rfl
  · rw [if_neg hp] at h
    exact Option.noConfusion h

/-! ### Claim C3 -/

/-- C3: for every container volume mount whose name has no matching entry (by
exact name) in the descriptor's `persistentVolumes` list, the synthesis step for
that mount appends a new declared volume entry with default size `"100Mi"` to
`persistentVolumes`, and produces a storage-claim resource whose name equals the
mount name, requesting the quantity parsed from `"100Mi"`, with single-writer
(`ReadWriteOnce`) access mode. -/
theorem c3_undeclared_mount_defaults (a : App) (ps : List PersistentVolumeClaim)
    (vm : VolumeMount)
    (h : isVolumeDefined a vm.name = false) :
    processMount (a, ps) vm =
      .ok ({ a with
             podSpec := { a.podSpec with
               volumes := a.podSpec.volumes ++ [mkPodVolume vm.name] },
             persistentVolumes :=
               a.persistentVolumes ++ [{ volume := mkPodVolume vm.name, size := "100Mi" }] },
           ps ++ [{ name := vm.name, storageRequest := q100Mi,
                    accessModes := [AccessMode.readWriteOnce] }]) ∧
    parseQuantity "100Mi" = some q100Mi :=
  ⟨processMount_notFound a ps vm h, rfl⟩

/-- The descriptor of the C3 witness: one container mounting `"data"`, nothing
declared in `persistentVolumes`. -/
def exAppC3 : App :=
  { name := "web", replicas := none, expose := false, labels := none,
    persistentVolumes := [],
    podSpec :=
      { containers :=
          [{ name := "c1", ports := [],
             volumeMounts := [{ name := "data", mountPath := "/var/data" }] }],
        volumes := [] } }

theorem c3_witness :
    isVolumeDefined exAppC3 "data" = false ∧
    (processMount (exAppC3, []) { name := "data", mountPath := "/var/data" } =
      .ok ({ exAppC3 with
             podSpec := { exAppC3.podSpec with
               volumes := exAppC3.podSpec.volumes ++ [mkPodVolume "data"] },
             persistentVolumes :=
               exAppC3.persistentVolumes ++ [{ volume := mkPodVolume "data", size := "100Mi" }] },
           [] ++ [{ name := "data", storageRequest := q100Mi,
                    accessModes := [AccessMode.readWriteOnce] }]) ∧
      parseQuantity "100Mi" = some q100Mi) :=
  ⟨rfl, c3_undeclared_mount_defaults exAppC3 [] { name := "data", mountPath := "/var/data" } rfl⟩

/-! ### Claim C4 -/

/-- C4: for every container volume mount whose name is declared in the
descriptor's `persistentVolumes` list, the synthesis step for that mount builds
the storage-claim resource from the first declared volume with that name —
requesting exactly the quantity parsed from the declared size — appends no
declared-volume entry (the `persistentVolumes` field of the resulting app is
untouched), and the found volume's name equals the mount name. -/
theorem c4_declared_mount_uses_declared_size (a : App) (ps : List PersistentVolumeClaim)
    (vm : VolumeMount) (v : Volume) (q : Quantity)
    (hdef : isVolumeDefined a vm.name = true)
    (hfind : a.persistentVolumes.find? (fun w => vm.name == w.volume.name) = some v)
    (hq : parseQuantity v.size = some q) :
    processMount (a, ps) vm =
      .ok ({ a with podSpec := { a.podSpec with
               volumes := a.podSpec.volumes ++ [mkPodVolume vm.name] } },
           ps ++ [{ name := v.volume.name, storageRequest := q,
                    accessModes := [AccessMode.readWriteOnce] }]) ∧
    v.volume.name = vm.name := by
  have hcp : createPVC v
      = Except.ok ({ name := v.volume.name, storageRequest := q,
                     accessModes := [AccessMode.readWriteOnce] } : PersistentVolumeClaim) := by
    unfold createPVC
    rw [hq]
  constructor
  · rw [processMount_found a ps vm v hdef hfind, hcp]
  · have := List.find?_some hfind
    have h2 : vm.name = v.volume.name := by simpa using this
    exact h2.symm

/-- The descriptor of the C4 witness (scenario D): `persistentVolumes` declares
`data` at size `"10Gi"` and one container mounts `"data"`. -/
def exAppC4 : App :=
  { name := "web", replicas := none, expose := false, labels := none,
    persistentVolumes := [{ volume := mkPodVolume "data", size := "10Gi" }],
    podSpec :=
      { containers :=
          [{ name := "c1", ports := [],
             volumeMounts := [{ name := "data", mountPath := "/var/data" }] }],
        volumes := [] } }

theorem c4_witness :
    isVolumeDefined exAppC4 "data" = true ∧
    exAppC4.persistentVolumes.find? (fun w => "data" == w.volume.name)
      = some { volume := mkPodVolume "data", size := "10Gi" } ∧
    parseQuantity "10Gi" = some { neg := false, digits := ['1', '0'], suffix := "Gi" } ∧
    (processMount (exAppC4, []) { name := "data", mountPath := "/var/data" } =
      .ok ({ exAppC4 with podSpec := { exAppC4.podSpec with
               volumes := exAppC4.podSpec.volumes ++ [mkPodVolume "data"] } },
           [] ++ [{ name := "data", storageRequest := { neg := false, digits := ['1', '0'], suffix := "Gi" },
                    accessModes := [AccessMode.readWriteOnce] }]) ∧
     ("data" : String) = "data") :=
  ⟨rfl, rfl, rfl,
    c4_declared_mount_uses_declared_size exAppC4 [] { name := "data", mountPath := "/var/data" }
      { volume := mkPodVolume "data", size := "10Gi" }
      { neg := false, digits := ['1', '0'], suffix := "Gi" } rfl rfl rfl⟩

/-! ### Claim C1 -/

/-- A descriptor whose single container declares no port at all. -/
def exAppC1 : App :=
  { name := "web", replicas := none, expose := false, labels := none,
    persistentVolumes := [],
    podSpec :=
      { containers := [{ name := "", ports := [], volumeMounts := [] }],
        volumes := [] } }

/-- C1: for a descriptor with zero container ports the synthesis output is NOT
free of a network-exposure entry: the nil service pointer is appended anyway, so
the output contains a null exposure element at position 1, between the workload
and the (empty) claim list, instead of being filtered out. -/
theorem c1_zero_ports_emits_nil_service :
    allPorts exAppC1 = [] ∧
    CreateK8sObjects exAppC1 =
      .ok ({ name := "web", replicas := none, expose := false,
             labels := some [("app", "web")],
             persistentVolumes := [],
             podSpec :=
               { containers := [{ name := "web", ports := [], volumeMounts := [] }],
                 volumes := [] } },
           [K8sObject.deployment
              { name := "web", labels := some [("app", "web")], replicas := none,
                template :=
                  { name := "web", labels := some [("app", "web")],
                    spec :=
                      { containers := [{ name := "web", ports := [], volumeMounts := [] }],
                        volumes := [] } } },
            K8sObject.service none]) :=
  ⟨rfl, rfl⟩

/-! ### Claim C9 -/

/-- A descriptor declaring a volume whose size string cannot be parsed as a
storage quantity, with a container mounting it. -/
def exAppC9 : App :=
  { name := "web", replicas := none, expose := false, labels := none,
    persistentVolumes := [{ volume := mkPodVolume "data", size := "banana" }],
    podSpec :=
      { containers :=
          [{ name := "c1", ports := [],
             volumeMounts := [{ name := "data", mountPath := "/var/data" }] }],
        volumes := [] } }

/-- C9: on an unparseable volume size `CreateK8sObjects` does abort with a
descriptive error and produces no resource list — but the per-descriptor
`Convert` step assigns that error to a variable it never checks, ranges over the
nil object slice, and reports overall success with no output: the failure is NOT
propagated to the caller. -/
theorem c9_error_swallowed_by_convert :
    parseQuantity "banana" = none ∧
    CreateK8sObjects exAppC9 = .error "cannot create pvc: could not read volume size" ∧
    convertApp exAppC9 = .ok [] :=
  ⟨rfl, rfl, rfl⟩

/-! ### Claim C2, counterexample -/

/-- A descriptor whose single container mounts the same name `"data"` twice. -/
def exAppC2 : App :=
  { name := "web", replicas := none, expose := false, labels := none,
    persistentVolumes := [],
    podSpec :=
      { containers :=
          [{ name := "c1", ports := [],
             volumeMounts :=
               [{ name := "data", mountPath := "/a" },
                { name := "data", mountPath := "/b" }] }],
        volumes := [] } }

/-- C2 fails as stated: after one synthesis call on a descriptor whose container
mounts `"data"` twice, the pod-level volume list contains two entries named
`"data"`, not exactly one. -/
theorem c2_counterexample :
    (CreateK8sObjects exAppC2).map
        (fun st => (st.1.podSpec.volumes.filter (fun v => v.name == "data")).length)
      = .ok 2 ∧
    (2 : Nat) ≠ 1 :=
  ⟨rfl, by decide⟩

/-! ### Claim C6, counterexample -/

/-- A descriptor whose labels mapping is present but empty (a non-nil empty map),
with one container port so that a service is produced. -/
def exAppC6 : App :=
  { name := "web", replicas := none, expose := false, labels := some [],
    persistentVolumes := [],
    podSpec :=
      { containers :=
          [{ name := "c1", ports := [{ containerPort := 8080 }], volumeMounts := [] }],
        volumes := [] } }

/-- C6 fails as stated for an empty-but-set labels mapping: the `Labels == nil`
check does not fire on a non-nil empty map, so the labels stay empty and the
produced service's selector is the empty mapping, not `[(app, name)]`. -/
theorem c6_counterexample :
    (CreateK8sObjects exAppC6).map (fun st => st.1.labels) = .ok (some []) ∧
    (CreateK8sObjects exAppC6).map
        (fun st => st.2.get? 1)
      = .ok (some (K8sObject.service (some
          { name := "web", labels := some [], selector := some [],
            serviceType := "",
            ports := [{ name := "port-8080", port := 8080, targetPort := 8080 }] }))) ∧
    (some ([] : List (String × String))) ≠ some [("app", "web")] :=
  ⟨rfl, rfl, by decide⟩

/-! ### Claim C6, amended -/

theorem allPorts_ensureLabels (app : App) :
    allPorts (ensureLabels app) = allPorts app := by
  unfold allPorts
  rw [ensureLabels_podSpec]

theorem flatMounts_ensureLabels (app : App) :
    flatMounts (ensureLabels app) = flatMounts app := by
  unfold flatMounts
  rw [ensureLabels_podSpec]

/-- C6 (amended): for every descriptor whose labels mapping is unset (a nil map —
an explicitly empty mapping is left alone by the `Labels == nil` check), synthesis
sets it to the single-entry mapping `[(app, name)]` before any derivation reads
it, and afterwards the workload resource's labels, the pod template's labels, and
the service's labels and selector (when the service is present) all equal
`[(app, name)]`. -/
theorem c6_unset_labels_defaulted (app : App) (a' : App) (objs : List K8sObject)
    (hl : app.labels = none)
    (h : CreateK8sObjects app = .ok (a', objs)) :
    a'.labels = some [("app", app.name)] ∧
    (∃ rest, objs = K8sObject.deployment (createDeployment a') :: rest ∧
       (createDeployment a').labels = some [("app", app.name)] ∧
       (createDeployment a').template.labels = some [("app", app.name)]) ∧
    (∀ s, K8sObject.service (some s) ∈ objs →
       s.labels = some [("app", app.name)] ∧ s.selector = some [("app", app.name)]) := by
  obtain ⟨a1, ps, hvi, ha', hobjs⟩ := createK8sObjects_ok app a' objs h
  have hE : ensureLabels app = { app with labels := some [("app", app.name)] } :=
    ensureLabels_of_none app hl
  rw [volumeInference_eq] at hvi
  obtain ⟨⟨_, _, _, g4, _⟩, _, _, _, _⟩ :=
    runMounts_ok (flatMounts (ensureLabels app)) (ensureLabels app) [] a1 ps hvi
  have ha1l : a1.labels = some [("app", app.name)] := by
    rw [g4, hE]
  have ha'l : a'.labels = some [("app", app.name)] := by
    rw [ha', renameSingleContainer_labels, ha1l]
  refine ⟨ha'l, ⟨_, hobjs, ?_, ?_⟩, ?_⟩
  · show a'.labels = some [("app", app.name)]
    exact ha'l
  · show a'.labels = some [("app", app.name)]
    exact ha'l
  · intro s hs
    rw [hobjs] at hs
    rcases List.mem_cons.mp hs with hc | hs2
    · exact K8sObject.noConfusion hc
    rcases List.mem_cons.mp hs2 with hc | hs3
    · have hbs : buildService (ensureLabels app) = some s := by
        injection hc with h1
        exact h1.symm
      obtain ⟨_, hbl, hbsel, _, _⟩ := buildService_fields (ensureLabels app) s hbs
      constructor
      · rw [hbl, hE]
      · rw [hbsel, hE]
    · exfalso
      obtain ⟨p, _, hp⟩ := List.mem_map.mp hs3
      exact K8sObject.noConfusion hp

/-! ### Claim C7 -/

/-- C7: for every descriptor with at least one container port, the aggregated
port list is the flattening of every container's ports — container order, then
port order, no de-duplication — and the produced service carries exactly one
port entry per aggregated port, named `port-<containerPort>`, exposing the
container's port number identically as port and target port. -/
theorem c7_ports_aggregation_and_service_ports (app : App) (a' : App)
    (objs : List K8sObject)
    (hp : allPorts app ≠ [])
    (h : CreateK8sObjects app = .ok (a', objs)) :
    allPorts app = (app.podSpec.containers.map Container.ports).flatten ∧
    ∃ s, objs.get? 1 = some (K8sObject.service (some s)) ∧
      s.ports = (allPorts app).map servicePortFor ∧
      s.ports.length = (allPorts app).length ∧
      ∀ p, servicePortFor p
        = { name := "port-" ++ toString p.containerPort,
            port := p.containerPort, targetPort := p.containerPort } := by
  obtain ⟨a1, ps, hvi, ha', hobjs⟩ := createK8sObjects_ok app a' objs h
  have hlen : (allPorts (ensureLabels app)).length > 0 := by
    rw [allPorts_ensureLabels]
    exact List.length_pos.mpr hp
  have hbs := buildService_of_ports (ensureLabels app) hlen
  refine ⟨allPorts_eq_flatten app, ?_⟩
  refine ⟨addServicePorts (setServiceType (ensureLabels app) (initService (ensureLabels app)))
      (allPorts (ensureLabels app)), ?_, ?_, ?_, fun p => rfl⟩
  · rw [hobjs, hbs]
    rfl
  · rw [addServicePorts_ports, setServiceType_ports, allPorts_ensureLabels]
    rfl
  · rw [addServicePorts_ports, setServiceType_ports, allPorts_ensureLabels]
    simp [initService]

/-! ### Witnesses for C6 and C7 -/

/-- Scenario A descriptor: one container, one port, no labels. -/
def exAppC6W : App :=
  { name := "web", replicas := none, expose := false, labels := none,
    persistentVolumes := [],
    podSpec :=
      { containers :=
          [{ name := "c1", ports := [{ containerPort := 8080 }], volumeMounts := [] }],
        volumes := [] } }

/-- The app state after synthesising `exAppC6W`. -/
def exOutC6W : App :=
  { name := "web", replicas := none, expose := false,
    labels := some [("app", "web")],
    persistentVolumes := [],
    podSpec :=
      { containers :=
          [{ name := "c1", ports := [{ containerPort := 8080 }], volumeMounts := [] }],
        volumes := [] } }

/-- The objects produced for `exAppC6W`. -/
def exObjsC6W : List K8sObject :=
  [K8sObject.deployment
     { name := "web", labels := some [("app", "web")], replicas := none,
       template :=
         { name := "web", labels := some [("app", "web")],
           spec :=
             { containers :=
                 [{ name := "c1", ports := [{ containerPort := 8080 }], volumeMounts := [] }],
               volumes := [] } } },
   K8sObject.service
     (some { name := "web", labels := some [("app", "web")],
             selector := some [("app", "web")], serviceType := "",
             ports := [{ name := "port-8080", port := 8080, targetPort := 8080 }] })]

theorem c6_witness :
    exAppC6W.labels = none ∧
    CreateK8sObjects exAppC6W = .ok (exOutC6W, exObjsC6W) ∧
    (exOutC6W.labels = some [("app", "web")] ∧
     (∃ rest, exObjsC6W = K8sObject.deployment (createDeployment exOutC6W) :: rest ∧
        (createDeployment exOutC6W).labels = some [("app", "web")] ∧
        (createDeployment exOutC6W).template.labels = some [("app", "web")]) ∧
     (∀ s, K8sObject.service (some s) ∈ exObjsC6W →
        s.labels = some [("app", "web")] ∧ s.selector = some [("app", "web")])) :=
  ⟨rfl, rfl, c6_unset_labels_defaulted exAppC6W exOutC6W exObjsC6W rfl rfl⟩

/-- Same shape as scenario A, for the C7 witness. -/
def exAppC7 : App :=
  { name := "api", replicas := none, expose := false, labels := none,
    persistentVolumes := [],
    podSpec :=
      { containers :=
          [{ name := "c1", ports := [{ containerPort := 8080 }], volumeMounts := [] }],
        volumes := [] } }

/-- The app state after synthesising `exAppC7`. -/
def exOutC7 : App :=
  { name := "api", replicas := none, expose := false,
    labels := some [("app", "api")],
    persistentVolumes := [],
    podSpec :=
      { containers :=
          [{ name := "c1", ports := [{ containerPort := 8080 }], volumeMounts := [] }],
        volumes := [] } }

/-- The objects produced for `exAppC7`. -/
def exObjsC7 : List K8sObject :=
  [K8sObject.deployment
     { name := "api", labels := some [("app", "api")], replicas := none,
       template :=
         { name := "api", labels := some [("app", "api")],
           spec :=
             { containers :=
                 [{ name := "c1", ports := [{ containerPort := 8080 }], volumeMounts := [] }],
               volumes := [] } } },
   K8sObject.service
     (some { name := "api", labels := some [("app", "api")],
             selector := some [("app", "api")], serviceType := "",
             ports := [{ name := "port-8080", port := 8080, targetPort := 8080 }] })]

theorem c7_witness :
    allPorts exAppC7 ≠ [] ∧
    CreateK8sObjects exAppC7 = .ok (exOutC7, exObjsC7) ∧
    (allPorts exAppC7 = (exAppC7.podSpec.containers.map Container.ports).flatten ∧
     ∃ s, exObjsC7.get? 1 = some (K8sObject.service (some s)) ∧
       s.ports = (allPorts exAppC7).map servicePortFor ∧
       s.ports.length = (allPorts exAppC7).length ∧
       ∀ p, servicePortFor p
         = { name := "port-" ++ toString p.containerPort,
             port := p.containerPort, targetPort := p.containerPort }) :=
  ⟨by decide, rfl,
    c7_ports_aggregation_and_service_ports exAppC7 exOutC7 exObjsC7 (by decide) rfl⟩

/-! ### Claim C5 -/

/-- On a descriptor whose every mount name is already declared, one inference
pass leaves `persistentVolumes` untouched, grows the pod-volume list by the
number of mounts and preserves the containers. -/
theorem volumeInference_fullyDeclared (app : App) (a1 : App)
    (ps1 : List PersistentVolumeClaim)
    (hdecl : ∀ vm ∈ flatMounts app, isVolumeDefined app vm.name = true)
    (h : volumeInference app = .ok (a1, ps1)) :
    a1.persistentVolumes = app.persistentVolumes ∧
    a1.podSpec.volumes.length = app.podSpec.volumes.length + totalMounts app ∧
    a1.podSpec.containers = app.podSpec.containers := by
  rw [volumeInference_eq] at h
  obtain ⟨⟨_, _, _, _, g5⟩, V, _, ⟨extra, he, heprops, _⟩, _⟩ :=
    runMounts_ok (flatMounts app) app [] a1 ps1 h
  have hextra : extra = [] := by
    cases extra with
    | nil => rfl
    | cons w t =>
      exfalso
      obtain ⟨_, hd, hm⟩ := heprops w (List.mem_cons_self w t)
      obtain ⟨vm, hvm, hvmn⟩ := List.mem_map.mp hm
      have hdecl' := hdecl vm hvm
      rw [hvmn] at hdecl'
      rw [hdecl'] at hd
      exact Bool.noConfusion hd
  subst hextra
  refine ⟨by simpa using he, ?_, g5⟩
  rw [V, totalMounts_eq]
  simp

/-- C5: on a descriptor whose every container volume mount's name already
appears in `persistentVolumes`, running the volume/claim inference pass twice
leaves the declared-volume list contents unchanged both times, while the
pod-level volume list length grows by the number of mounts on each run. -/
theorem c5_idempotent_on_fully_declared (app : App) (a1 a2 : App)
    (ps1 ps2 : List PersistentVolumeClaim)
    (hdecl : ∀ vm ∈ flatMounts app, isVolumeDefined app vm.name = true)
    (h1 : volumeInference app = .ok (a1, ps1))
    (h2 : volumeInference a1 = .ok (a2, ps2)) :
    a1.persistentVolumes = app.persistentVolumes ∧
    a2.persistentVolumes = app.persistentVolumes ∧
    a1.podSpec.volumes.length = app.podSpec.volumes.length + totalMounts app ∧
    a2.podSpec.volumes.length = app.podSpec.volumes.length + 2 * totalMounts app := by
  obtain ⟨hpv1, hvol1, hc1⟩ := volumeInference_fullyDeclared app a1 ps1 hdecl h1
  have hfm : flatMounts a1 = flatMounts app := by
    unfold flatMounts
    rw [hc1]
  have hdecl2 : ∀ vm ∈ flatMounts a1, isVolumeDefined a1 vm.name = true := by
    intro vm hvm
    rw [hfm] at hvm
    unfold isVolumeDefined
    rw [hpv1]
    exact hdecl vm hvm
  obtain ⟨hpv2, hvol2, _⟩ := volumeInference_fullyDeclared a1 a2 ps2 hdecl2 h2
  have htm : totalMounts a1 = totalMounts app := by
    rw [totalMounts_eq, totalMounts_eq, hfm]
  refine ⟨hpv1, by rw [hpv2, hpv1], hvol1, ?_⟩
  rw [hvol2, hvol1, htm]
  omega

/-- Fully declared descriptor for the C5 witness: `data` declared at `"10Gi"`,
one container mounting `data`. -/
def exAppC5 : App :=
  { name := "db", replicas := none, expose := false, labels := none,
    persistentVolumes := [{ volume := mkPodVolume "data", size := "10Gi" }],
    podSpec :=
      { containers :=
          [{ name := "c1", ports := [],
             volumeMounts := [{ name := "data", mountPath := "/var/data" }] }],
        volumes := [] } }

/-- The app state after one inference pass over `exAppC5`. -/
def exOutC5a : App :=
  { name := "db", replicas := none, expose := false, labels := none,
    persistentVolumes := [{ volume := mkPodVolume "data", size := "10Gi" }],
    podSpec :=
      { containers :=
          [{ name := "c1", ports := [],
             volumeMounts := [{ name := "data", mountPath := "/var/data" }] }],
        volumes := [mkPodVolume "data"] } }

/-- The app state after a second inference pass. -/
def exOutC5b : App :=
  { name := "db", replicas := none, expose := false, labels := none,
    persistentVolumes := [{ volume := mkPodVolume "data", size := "10Gi" }],
    podSpec :=
      { containers :=
          [{ name := "c1", ports := [],
             volumeMounts := [{ name := "data", mountPath := "/var/data" }] }],
        volumes := [mkPodVolume "data", mkPodVolume "data"] } }

/-- The claim produced by each pass over `exAppC5`. -/
def exPvcC5 : PersistentVolumeClaim :=
  { name := "data", storageRequest := { neg := false, digits := ['1', '0'], suffix := "Gi" },
    accessModes := [AccessMode.readWriteOnce] }

theorem c5_witness :
    (∀ vm ∈ flatMounts exAppC5, isVolumeDefined exAppC5 vm.name = true) ∧
    volumeInference exAppC5 = .ok (exOutC5a, [exPvcC5]) ∧
    volumeInference exOutC5a = .ok (exOutC5b, [exPvcC5]) ∧
    (exOutC5a.persistentVolumes = exAppC5.persistentVolumes ∧
     exOutC5b.persistentVolumes = exAppC5.persistentVolumes ∧
     exOutC5a.podSpec.volumes.length = exAppC5.podSpec.volumes.length + totalMounts exAppC5 ∧
     exOutC5b.podSpec.volumes.length
       = exAppC5.podSpec.volumes.length + 2 * totalMounts exAppC5) :=
  ⟨by decide, rfl, rfl,
    c5_idempotent_on_fully_declared exAppC5 exOutC5a exOutC5b [exPvcC5] [exPvcC5]
      (by decide) rfl rfl⟩

/-! ### Claim C10 -/

theorem ensureLabels_mountNames (app : App) :
    (flatMounts (ensureLabels app)).map VolumeMount.name = mountNames app := by
  rw [flatMounts_ensureLabels]
  rfl

/-- C10: for every declared volume name not referenced by any container's
mounts, one synthesis call produces no storage-claim object and no pod-level
volume entry for that name, and the `persistentVolumes` entries of that name are
left exactly as they were (claims are derived only from container mounts). -/
theorem c10_unreferenced_declared_volume_untouched (app : App) (a' : App)
    (objs : List K8sObject) (m : String)
    (hm : m ∉ mountNames app)
    (h : CreateK8sObjects app = .ok (a', objs)) :
    (∀ p, K8sObject.pvc p ∈ objs → p.name ≠ m) ∧
    a'.podSpec.volumes.filter (fun v => v.name == m)
      = app.podSpec.volumes.filter (fun v => v.name == m) ∧
    a'.persistentVolumes.filter (fun w => w.volume.name == m)
      = app.persistentVolumes.filter (fun w => w.volume.name == m) := by
  obtain ⟨a1, ps, hvi, ha', hobjs⟩ := createK8sObjects_ok app a' objs h
  rw [volumeInference_eq] at hvi
  obtain ⟨_, V, ⟨news, hn, hnnames, _⟩, ⟨extra, he, heprops, _⟩, _⟩ :=
    runMounts_ok (flatMounts (ensureLabels app)) (ensureLabels app) [] a1 ps hvi
  have hmsn := ensureLabels_mountNames app
  refine ⟨?_, ?_, ?_⟩
  · intro p hp
    rw [hobjs] at hp
    rcases List.mem_cons.mp hp with hc | hp2
    · exact K8sObject.noConfusion hc
    rcases List.mem_cons.mp hp2 with hc | hp3
    · exact K8sObject.noConfusion hc
    obtain ⟨q, hq, hqp⟩ := List.mem_map.mp hp3
    have hqp' : q = p := by injection hqp
    subst hqp'
    have hq2 : q ∈ news := by
      rw [hn] at hq
      simpa using hq
    have : q.name ∈ mountNames app := by
      rw [← hmsn, ← hnnames]
      exact List.mem_map_of_mem PersistentVolumeClaim.name hq2
    intro hqm
    rw [hqm] at this
    exact hm this
  · rw [ha', renameSingleContainer_volumes, V, ensureLabels_podSpec,
      List.filter_append]
    have : ((flatMounts (ensureLabels app)).map
        (fun vm => mkPodVolume vm.name)).filter (fun v => v.name == m) = [] := by
      rw [List.filter_eq_nil_iff]
      intro x hx
      obtain ⟨vm, hvm, hvmx⟩ := List.mem_map.mp hx
      have hname : x.name = vm.name := by rw [← hvmx]; rfl
      rw [hname]
      have hmem : vm.name ∈ mountNames app := by
        rw [← hmsn]
        exact List.mem_map_of_mem VolumeMount.name hvm
      simp only [beq_iff_eq]
      intro hcontra
      rw [hcontra] at hmem
      exact hm hmem
    rw [this, List.append_nil]
  · rw [ha', renameSingleContainer_persistentVolumes, he,
      ensureLabels_persistentVolumes, List.filter_append]
    have : extra.filter (fun w => w.volume.name == m) = [] := by
      rw [List.filter_eq_nil_iff]
      intro w hw
      obtain ⟨_, _, hmem0⟩ := heprops w hw
      have hmem : w.volume.name ∈ mountNames app := by
        rw [← hmsn]
        exact hmem0
      simp only [beq_iff_eq]
      intro hcontra
      rw [hcontra] at hmem
      exact hm hmem
    rw [this, List.append_nil]

/-- Descriptor for the C10 witness: `logs` is declared but never mounted;
`data` is mounted. -/
def exAppC10 : App :=
  { name := "db", replicas := none, expose := false, labels := none,
    persistentVolumes :=
      [{ volume := mkPodVolume "logs", size := "5Gi" },
       { volume := mkPodVolume "data", size := "10Gi" }],
    podSpec :=
      { containers :=
          [{ name := "c1", ports := [],
             volumeMounts := [{ name := "data", mountPath := "/var/data" }] }],
        volumes := [] } }

/-- The app state after synthesising `exAppC10`. -/
def exOutC10 : App :=
  { name := "db", replicas := none, expose := false, labels := some [("app", "db")],
    persistentVolumes :=
      [{ volume := mkPodVolume "logs", size := "5Gi" },
       { volume := mkPodVolume "data", size := "10Gi" }],
    podSpec :=
      { containers :=
          [{ name := "c1", ports := [],
             volumeMounts := [{ name := "data", mountPath := "/var/data" }] }],
        volumes := [mkPodVolume "data"] } }

/-- The objects produced for `exAppC10`. -/
def exObjsC10 : List K8sObject :=
  [K8sObject.deployment
     { name := "db", labels := some [("app", "db")], replicas := none,
       template :=
         { name := "db", labels := some [("app", "db")],
           spec :=
             { containers :=
                 [{ name := "c1", ports := [],
                    volumeMounts := [{ name := "data", mountPath := "/var/data" }] }],
               volumes := [mkPodVolume "data"] } } },
   K8sObject.service none,
   K8sObject.pvc
     { name := "data",
       storageRequest := { neg := false, digits := ['1', '0'], suffix := "Gi" },
       accessModes := [AccessMode.readWriteOnce] }]

theorem c10_witness :
    ("logs" ∉ mountNames exAppC10) ∧
    CreateK8sObjects exAppC10 = .ok (exOutC10, exObjsC10) ∧
    ((∀ p, K8sObject.pvc p ∈ exObjsC10 → p.name ≠ "logs") ∧
     exOutC10.podSpec.volumes.filter (fun v => v.name == "logs")
       = exAppC10.podSpec.volumes.filter (fun v => v.name == "logs") ∧
     exOutC10.persistentVolumes.filter (fun w => w.volume.name == "logs")
       = exAppC10.persistentVolumes.filter (fun w => w.volume.name == "logs")) :=
  ⟨by decide, rfl,
    c10_unreferenced_declared_volume_untouched exAppC10 exOutC10 exObjsC10 "logs"
      (by decide) rfl⟩

/-! ### Claim C2, amended -/

theorem length_filter_map {α β : Type} (f : α → β) (p : β → Bool) :
    ∀ (l : List α),
      ((l.map f).filter p).length = (l.filter (fun x => p (f x))).length := by
  intro l
  induction l with
  | nil => rfl
  | cons x rest ih =>
    simp only [List.map_cons, List.filter_cons]
    cases hp : p (f x) <;> simp [ih]

/-- Over a list of volumes with pairwise-distinct names, the number of entries
carrying a given name is one when the name occurs and zero otherwise. -/
theorem filter_count_nodup (n : String) :
    ∀ (l : List Volume),
      (l.map (fun w => w.volume.name)).Nodup →
      (l.filter (fun w => w.volume.name == n)).length
        = if n ∈ l.map (fun w => w.volume.name) then 1 else 0 := by
  intro l
  induction l with
  | nil => intro _; simp
  | cons w t ih =>
    intro hnd
    rw [List.map_cons, List.nodup_cons] at hnd
    obtain ⟨hwt, hndt⟩ := hnd
    simp only [List.filter_cons]
    by_cases hw : (w.volume.name == n)
    · have hwn : w.volume.name = n := by simpa using hw
      rw [if_pos hw]
      have ht0 : (t.filter (fun w => w.volume.name == n)).length = 0 := by
        rw [ih hndt, if_neg]
        rw [← hwn]
        exact hwt
      have hmem : n ∈ (w :: t).map (fun w => w.volume.name) := by
        rw [List.map_cons, hwn]
        exact List.mem_cons_self _ _
      rw [if_pos hmem]
      simp [ht0]
    · have hw' : (w.volume.name == n) = false := by simpa using hw
      rw [if_neg (by simp [hw'])]
      rw [ih hndt]
      by_cases hmem : n ∈ t.map (fun w => w.volume.name)
      · rw [if_pos hmem, if_pos]
        rw [List.map_cons]
        exact List.mem_cons_of_mem _ hmem
      · rw [if_neg hmem, if_neg]
        rw [List.map_cons]
        intro hc
        rcases List.mem_cons.mp hc with hc1 | hc2
        · rw [hc1] at hw'
          simp at hw'
        · exact hmem hc2

theorem isVolumeDefined_ensureLabels (app : App) (x : String) :
    isVolumeDefined (ensureLabels app) x = isVolumeDefined app x := by
  unfold isVolumeDefined
  rw [ensureLabels_persistentVolumes]

theorem isVolumeDefined_false_filter (a : App) (x : String)
    (h : isVolumeDefined a x = false) :
    a.persistentVolumes.filter (fun w => w.volume.name == x) = [] := by
  rw [List.filter_eq_nil_iff]
  intro w hw
  simp only [beq_iff_eq]
  intro hwx
  have htrue : isVolumeDefined a x = true := by
    unfold isVolumeDefined
    rw [List.any_eq_true]
    exact ⟨w, hw, by simp [hwx]⟩
  rw [htrue] at h
  exact Bool.noConfusion h

theorem isVolumeDefined_true_exists (a : App) (x : String)
    (h : isVolumeDefined a x = true) :
    ∃ v ∈ a.persistentVolumes, v.volume.name = x := by
  unfold isVolumeDefined at h
  rw [List.any_eq_true] at h
  obtain ⟨v, hv, hpx⟩ := h
  refine ⟨v, hv, ?_⟩
  have : x = v.volume.name := by simpa using hpx
  exact this.symm

/-- C2 (amended): after one synthesis call, the pod-level volume list gains
exactly one entry per volume-mount occurrence — for each name, as many entries
as there are mounts with that name (so duplicate-named pod volumes when mounts
share a name) — and the declared-volume list gains exactly one auto-created
entry for a name iff that name was mounted and not declared before (never more
than one per name). -/
theorem c2_amended_volume_and_claim_counts (app : App) (a' : App)
    (objs : List K8sObject) (n : String)
    (h : CreateK8sObjects app = .ok (a', objs)) :
    (a'.podSpec.volumes.filter (fun v => v.name == n)).length
      = (app.podSpec.volumes.filter (fun v => v.name == n)).length
        + ((flatMounts app).filter (fun vm => vm.name == n)).length ∧
    (a'.persistentVolumes.filter (fun w => w.volume.name == n)).length
      = (app.persistentVolumes.filter (fun w => w.volume.name == n)).length
        + (if (app.persistentVolumes.filter (fun w => w.volume.name == n)).length = 0
              ∧ n ∈ mountNames app then 1 else 0) := by
  obtain ⟨a1, ps, hvi, ha', hobjs⟩ := createK8sObjects_ok app a' objs h
  rw [volumeInference_eq] at hvi
  obtain ⟨_, V, _, ⟨extra, he, heprops, hend⟩, hdefall⟩ :=
    runMounts_ok (flatMounts (ensureLabels app)) (ensureLabels app) [] a1 ps hvi
  constructor
  · rw [ha', renameSingleContainer_volumes, V, ensureLabels_podSpec,
      flatMounts_ensureLabels, List.filter_append, List.length_append]
    congr 1
    rw [length_filter_map (fun vm => mkPodVolume vm.name) (fun v => v.name == n)
      (flatMounts app)]
    rfl
  · rw [ha', renameSingleContainer_persistentVolumes, he,
      ensureLabels_persistentVolumes, List.filter_append, List.length_append]
    congr 1
    rw [filter_count_nodup n extra hend]
    have hiff : (n ∈ extra.map fun w => w.volume.name) ↔
        ((app.persistentVolumes.filter (fun w => w.volume.name == n)).length = 0
           ∧ n ∈ mountNames app) := by
      constructor
      · intro hmem
        obtain ⟨w, hw, hwn⟩ := List.mem_map.mp hmem
        obtain ⟨_, hd, hms⟩ := heprops w hw
        rw [isVolumeDefined_ensureLabels] at hd
        constructor
        · rw [← hwn, isVolumeDefined_false_filter app w.volume.name hd]
          rfl
        · rw [← hwn, ← ensureLabels_mountNames app]
          exact hms
      · rintro ⟨hcount, hmem⟩
        rw [← ensureLabels_mountNames app] at hmem
        obtain ⟨vm, hvm, hvmn⟩ := List.mem_map.mp hmem
        have hdef := hdefall vm hvm
        rw [hvmn] at hdef
        obtain ⟨v, hv, hvn⟩ := isVolumeDefined_true_exists a1 n hdef
        rw [he, ensureLabels_persistentVolumes] at hv
        rcases List.mem_append.mp hv with hv1 | hv2
        · exfalso
          have : v ∈ app.persistentVolumes.filter (fun w => w.volume.name == n) :=
            List.mem_filter.mpr ⟨hv1, by simp [hvn]⟩
          rcases hfil : app.persistentVolumes.filter (fun w => w.volume.name == n) with
            _ | ⟨x, xs⟩
          · rw [hfil] at this
            exact absurd this (List.not_mem_nil v)
          · rw [hfil] at hcount
            exact absurd hcount (by simp)
        · rw [← hvn]
          exact List.mem_map_of_mem _ hv2
    rw [if_congr hiff rfl rfl]

/-! ### Claim C8: the expose flag only changes the service type -/

theorem isVolumeDefined_find (a : App) (nm : String)
    (h : isVolumeDefined a nm = true) :
    ∃ v, a.persistentVolumes.find? (fun w => nm == w.volume.name) = some v := by
  unfold isVolumeDefined at h
  rw [List.any_eq_true] at h
  obtain ⟨x, hx, hpx⟩ := h
  cases hf : a.persistentVolumes.find? (fun w => nm == w.volume.name) with
  | some v => exact ⟨v, rfl⟩
  | none =>
    rw [List.find?_eq_none] at hf
    exact absurd hpx (hf x hx)

/-- A `processMount` step never reads the expose flag: it carries through. -/
theorem processMount_set_expose (e : Bool) (a : App)
    (ps : List PersistentVolumeClaim) (vm : VolumeMount) :
    processMount ({ a with expose := e }, ps) vm
      = match processMount (a, ps) vm with
        | .error s => .error s
        | .ok st => .ok ({ st.1 with expose := e }, st.2) := by
  by_cases hdef : isVolumeDefined a vm.name = true
  · have hdef' : isVolumeDefined { a with expose := e } vm.name = true := hdef
    obtain ⟨v, hfind⟩ := isVolumeDefined_find a vm.name hdef
    have hfind' : ({ a with expose := e } : App).persistentVolumes.find?
        (fun w => vm.name == w.volume.name) = some v := hfind
    rw [processMount_found { a with expose := e } ps vm v hdef' hfind',
        processMount_found a ps vm v hdef hfind]
    cases hpvc : createPVC v with
    | error s => rfl
    | ok pvc => rfl
  · have hdef2 : isVolumeDefined a vm.name = false := by simpa using hdef
    have hdef2' : isVolumeDefined { a with expose := e } vm.name = false := hdef2
    rw [processMount_notFound { a with expose := e } ps vm hdef2',
        processMount_notFound a ps vm hdef2]

theorem runMounts_set_expose (e : Bool) :
    ∀ (ms : List VolumeMount) (a : App) (ps : List PersistentVolumeClaim),
      runMounts ({ a with expose := e }, ps) ms
        = match runMounts (a, ps) ms with
          | .error s => .error s
          | .ok st => .ok ({ st.1 with expose := e }, st.2) := by
  intro ms
  induction ms with
  | nil => intro a ps; rfl
  | cons vm rest ih =>
    intro a ps
    rw [runMounts_cons, runMounts_cons, processMount_set_expose]
    cases hpm : processMount (a, ps) vm with
    | error s => rfl
    | ok st =>
      obtain ⟨a1, ps1⟩ := st
      exact ih a1 ps1

theorem volumeInference_set_expose (e : Bool) (app : App) :
    volumeInference { app with expose := e }
      = match volumeInference app with
        | .error s => .error s
        | .ok st => .ok ({ st.1 with expose := e }, st.2) := by
  rw [volumeInference_eq, volumeInference_eq]
  have hfm : flatMounts { app with expose := e } = flatMounts app := rfl
  rw [hfm]
  exact runMounts_set_expose e (flatMounts app) app []

theorem ensureLabels_set_expose (e : Bool) (app : App) :
    ensureLabels { app with expose := e } = { ensureLabels app with expose := e } := by
  obtain ⟨nm, r, ex, lb, pv, psp⟩ := app
  cases lb <;> rfl

theorem renameSingleContainer_set_expose (e : Bool) (a : App) :
    renameSingleContainer { a with expose := e }
      = { renameSingleContainer a with expose := e } := by
  obtain ⟨nm, r, ex, lb, pv, psp⟩ := a
  obtain ⟨cs, vols⟩ := psp
  rcases cs with _ | ⟨c, _ | ⟨d, t⟩⟩
  · rfl
  · by_cases hc : (c.name == "")
    · simp only [renameSingleContainer, hc]
      rfl
    · have hc' : (c.name == "") = false := by simpa using hc
      simp only [renameSingleContainer, hc']
      rfl
  · rfl

theorem buildService_set_expose_true (app : App) :
    buildService { app with expose := true }
      = (buildService { app with expose := false }).map
          (fun s => { s with serviceType := "LoadBalancer" }) := by
  unfold buildService
  have hap : allPorts { app with expose := true } = allPorts app := rfl
  have hap' : allPorts { app with expose := false } = allPorts app := rfl
  rw [hap, hap']
  by_cases hp : (allPorts app).length > 0
  · rw [if_pos hp, if_pos hp]
    rfl
  · rw [if_neg hp, if_neg hp]
    rfl

theorem setLoadBalancer_service (o : Option Service) :
    setLoadBalancer (K8sObject.service o)
      = K8sObject.service (o.map (fun s => { s with serviceType := "LoadBalancer" })) := by
  cases o <;> rfl

theorem setLoadBalancer_deployment (d : Deployment) :
    setLoadBalancer (K8sObject.deployment d) = K8sObject.deployment d := rfl

theorem map_setLoadBalancer_pvc (ps : List PersistentVolumeClaim) :
    (ps.map K8sObject.pvc).map setLoadBalancer = ps.map K8sObject.pvc := by
  rw [List.map_map]
  rfl

theorem createDeployment_set_expose (e : Bool) (a : App) :
    createDeployment { a with expose := e } = createDeployment a := rfl

/-- The whole synthesis with `expose` set is the synthesis with `expose` unset,
with every service object's type overridden to the load-balanced kind and the
app's expose field carried through — nothing else differs. -/
theorem createK8sObjects_set_expose_true (app : App) :
    CreateK8sObjects { app with expose := true }
      = match CreateK8sObjects { app with expose := false } with
        | .error s => .error s
        | .ok st => .ok ({ st.1 with expose := true }, st.2.map setLoadBalancer) := by
  unfold CreateK8sObjects
  rw [ensureLabels_set_expose true app, ensureLabels_set_expose false app,
    volumeInference_set_expose true (ensureLabels app),
    volumeInference_set_expose false (ensureLabels app)]
  cases hB : volumeInference (ensureLabels app) with
  | error s => rfl
  | ok st =>
    obtain ⟨a1, ps⟩ := st
    show Except.ok
        (renameSingleContainer { a1 with expose := true },
         K8sObject.deployment (createDeployment (renameSingleContainer { a1 with expose := true })) ::
         K8sObject.service (buildService { ensureLabels app with expose := true }) ::
         ps.map K8sObject.pvc)
      = Except.ok
        ({ renameSingleContainer { a1 with expose := false } with expose := true },
         (K8sObject.deployment (createDeployment (renameSingleContainer { a1 with expose := false })) ::
          K8sObject.service (buildService { ensureLabels app with expose := false }) ::
          ps.map K8sObject.pvc).map setLoadBalancer)
    rw [List.map_cons, List.map_cons, map_setLoadBalancer_pvc,
      setLoadBalancer_deployment, setLoadBalancer_service,
      ← buildService_set_expose_true (ensureLabels app),
      renameSingleContainer_set_expose true a1,
      renameSingleContainer_set_expose false a1,
      createDeployment_set_expose]
    rfl

/-- C8: for every descriptor that produces a service, the service built with
`expose = false` has the cluster-internal default type (the empty string), the
whole output with `expose = true` is exactly the `expose = false` output with
every service object's type overridden to `LoadBalancer` (and the carried app's
expose flag set) — the expose flag changes nothing else — and in particular the
`expose = true` output contains the same service with type `LoadBalancer`. -/
theorem c8_expose_only_changes_service_type (app : App) (a0 : App)
    (objs : List K8sObject) (s : Service)
    (h1 : CreateK8sObjects { app with expose := false } = .ok (a0, objs))
    (h2 : K8sObject.service (some s) ∈ objs) :
    s.serviceType = "" ∧
    CreateK8sObjects { app with expose := true }
      = .ok ({ a0 with expose := true }, objs.map setLoadBalancer) ∧
    K8sObject.service (some { s with serviceType := "LoadBalancer" })
      ∈ objs.map setLoadBalancer := by
  have h3 : CreateK8sObjects { app with expose := true }
      = .ok ({ a0 with expose := true }, objs.map setLoadBalancer) := by
    rw [createK8sObjects_set_expose_true, h1]
  obtain ⟨a1, ps, hvi, ha', hobjs⟩ :=
    createK8sObjects_ok { app with expose := false } a0 objs h1
  have hbs : buildService (ensureLabels { app with expose := false }) = some s := by
    rw [hobjs] at h2
    rcases List.mem_cons.mp h2 with hc | h22
    · exact K8sObject.noConfusion hc
    rcases List.mem_cons.mp h22 with hc | h23
    · injection hc with h4
      exact h4.symm
    · exfalso
      obtain ⟨p, _, hp⟩ := List.mem_map.mp h23
      exact K8sObject.noConfusion hp
  have hst : s.serviceType = "" := by
    obtain ⟨_, _, _, _, h5⟩ := buildService_fields _ s hbs
    rw [h5, ensureLabels_expose]
    rfl
  have heq : setLoadBalancer (K8sObject.service (some s))
      = K8sObject.service (some { s with serviceType := "LoadBalancer" }) := rfl
  have hmem := List.mem_map_of_mem setLoadBalancer h2
  rw [heq] at hmem
  exact ⟨hst, h3, hmem⟩

/-! ### Witnesses for C2 and C8 -/

/-- The app state after synthesising `exAppC2` (the duplicate-mount descriptor). -/
def exOutC2 : App :=
  { name := "web", replicas := none, expose := false, labels := some [("app", "web")],
    persistentVolumes := [{ volume := mkPodVolume "data", size := "100Mi" }],
    podSpec :=
      { containers :=
          [{ name := "c1", ports := [],
             volumeMounts :=
               [{ name := "data", mountPath := "/a" },
                { name := "data", mountPath := "/b" }] }],
        volumes := [mkPodVolume "data", mkPodVolume "data"] } }

/-- The objects produced for `exAppC2`. -/
def exObjsC2 : List K8sObject :=
  [K8sObject.deployment
     { name := "web", labels := some [("app", "web")], replicas := none,
       template :=
         { name := "web", labels := some [("app", "web")],
           spec :=
             { containers :=
                 [{ name := "c1", ports := [],
                    volumeMounts :=
                      [{ name := "data", mountPath := "/a" },
                       { name := "data", mountPath := "/b" }] }],
               volumes := [mkPodVolume "data", mkPodVolume "data"] } } },
   K8sObject.service none,
   K8sObject.pvc { name := "data", storageRequest := q100Mi,
                   accessModes := [AccessMode.readWriteOnce] },
   K8sObject.pvc { name := "data", storageRequest := q100Mi,
                   accessModes := [AccessMode.readWriteOnce] }]

theorem c2_amended_witness :
    CreateK8sObjects exAppC2 = .ok (exOutC2, exObjsC2) ∧
    ((exOutC2.podSpec.volumes.filter (fun v => v.name == "data")).length
       = (exAppC2.podSpec.volumes.filter (fun v => v.name == "data")).length
         + ((flatMounts exAppC2).filter (fun vm => vm.name == "data")).length ∧
     (exOutC2.persistentVolumes.filter (fun w => w.volume.name == "data")).length
       = (exAppC2.persistentVolumes.filter (fun w => w.volume.name == "data")).length
         + (if (exAppC2.persistentVolumes.filter
                  (fun w => w.volume.name == "data")).length = 0
               ∧ "data" ∈ mountNames exAppC2 then 1 else 0)) :=
  ⟨rfl, c2_amended_volume_and_claim_counts exAppC2 exOutC2 exObjsC2 "data" rfl⟩

/-- Base descriptor of the C8 witness: one container with port `80`. -/
def exAppC8 : App :=
  { name := "lb", replicas := none, expose := false, labels := none,
    persistentVolumes := [],
    podSpec :=
      { containers :=
          [{ name := "c1", ports := [{ containerPort := 80 }], volumeMounts := [] }],
        volumes := [] } }

/-- The app state after synthesising `exAppC8` with `expose = false`. -/
def exOutC8 : App :=
  { name := "lb", replicas := none, expose := false, labels := some [("app", "lb")],
    persistentVolumes := [],
    podSpec :=
      { containers :=
          [{ name := "c1", ports := [{ containerPort := 80 }], volumeMounts := [] }],
        volumes := [] } }

/-- The service produced for `exAppC8` with `expose = false`. -/
def exSvcC8 : Service :=
  { name := "lb", labels := some [("app", "lb")], selector := some [("app", "lb")],
    serviceType := "",
    ports := [{ name := "port-80", port := 80, targetPort := 80 }] }

/-- The objects produced for `exAppC8` with `expose = false`. -/
def exObjsC8 : List K8sObject :=
  [K8sObject.deployment
     { name := "lb", labels := some [("app", "lb")], replicas := none,
       template :=
         { name := "lb", labels := some [("app", "lb")],
           spec :=
             { containers :=
                 [{ name := "c1", ports := [{ containerPort := 80 }], volumeMounts := [] }],
               volumes := [] } } },
   K8sObject.service (some exSvcC8)]

theorem c8_witness :
    CreateK8sObjects { exAppC8 with expose := false } = .ok (exOutC8, exObjsC8) ∧
    K8sObject.service (some exSvcC8) ∈ exObjsC8 ∧
    (exSvcC8.serviceType = "" ∧
     CreateK8sObjects { exAppC8 with expose := true }
       = .ok ({ exOutC8 with expose := true }, exObjsC8.map setLoadBalancer) ∧
     K8sObject.service (some { exSvcC8 with serviceType := "LoadBalancer" })
       ∈ exObjsC8.map setLoadBalancer) :=
  ⟨rfl, by decide,
    c8_expose_only_changes_service_type exAppC8 exOutC8 exObjsC8 exSvcC8 rfl (by decide)⟩

end Kedge
